import Mathlib

/-!
Shallow embedding of the feature/graph assembly layer of the snakes example
(`examples/plot_snakes.py`): the color one-hot encoder `one_hot_colors`, the
3x3 neighborhood feature builder `neighborhood_feature`, and the per-sample
assembly `prepare_data` with its grid-graph edges and edge features.

Arrays are nested lists of naturals; a numpy statement that writes a slice of
an array becomes a function from the old array value to the new one, and the
body of the `prepare_data` loop is a sequence of such statements acting on an
explicit state record.  `make_grid_edges` and `edge_list_to_features` come
from `pystruct.utils`, which is not part of the sources at hand; they are
modelled from the spec as marked on their doc comments.
-/

/-- A raw pixel: the three color channel values. -/
abbrev Pixel : Type := ℕ × ℕ × ℕ

/-- An H x W x C numeric array as nested lists (innermost: channel values). -/
abbrev Grid : Type := List (List (List ℕ))

/-- A raw H x W x 3 color image. -/
abbrev RawGrid : Type := List (List Pixel)

/-- The class list passed to `label_binarize` in `one_hot_colors`:
`classes=[1, 2, 3, 4, 6]`. -/
def classes : List ℕ := [1, 2, 3, 4, 6]

/-- The combined channel code of a pixel: `np.dot(x.reshape(-1, 3), 2 ** np.arange(3))`
after `x = x / 255`, i.e. base-2 combination of the per-channel indicators with
weights 1, 2, 4. -/
def pixel_code (p : Pixel) : ℕ :=
  p.1 / 255 * 1 + p.2.1 / 255 * 2 + p.2.2 / 255 * 4

/-- One row of `label_binarize(flat, classes=[1, 2, 3, 4, 6])`: the indicator of
the value against each class in order; a value matching no class yields the
all-zero row. -/
def label_binarize_row (v : ℕ) : List ℕ :=
  classes.map (fun c => if v = c then 1 else 0)

/-- `one_hot_colors(x)`: divide channels by 255, combine with weights 1, 2, 4,
binarize against `classes`, reshape back to H x W x 5. -/
def one_hot_colors (x : RawGrid) : Grid :=
  x.map (fun row => row.map (fun p => label_binarize_row (pixel_code p)))

/-- The five raw colors that occur in valid snake input: exactly those whose
combined channel code lies in `classes`. -/
def valid_colors : List Pixel :=
  [(255, 0, 0), (0, 255, 0), (255, 255, 0), (0, 0, 255), (0, 255, 255)]

/-- Reference lookup table described by the spec: channel weights 1, 2, 4 mapped
over the 5 valid combinations give the category ids 0..4 in order. -/
def reference_table : List (ℕ × ℕ) := [(1, 0), (2, 1), (3, 2), (4, 3), (6, 4)]

/-- The category a combined channel code is assigned by the reference table. -/
def reference_category (v : ℕ) : ℕ := (reference_table.lookup v).getD 0

/-- The dominant category of an encoded pixel: the position of the single 1 in
its one-hot vector. -/
def dominant_category (v : List ℕ) : ℕ := v.indexOf 1

/-- A pixel whose three channels are each fully off or fully on; the 8 such
combinations are the domain over which the spec distinguishes the 5 valid
colors from the 3 invalid ones. -/
def binary_pixel (p : Pixel) : Prop :=
  (p.1 = 0 ∨ p.1 = 255) ∧ (p.2.1 = 0 ∨ p.2.1 = 255) ∧ (p.2.2 = 0 ∨ p.2.2 = 255)

instance (p : Pixel) : Decidable (binary_pixel p) := by
  unfold binary_pixel; infer_instance

/-- Follows the spec words, for comparison with `one_hot_colors`: a color
encoder that fails (modelled as `none`, standing for a raised `DecodingError`
that propagates and aborts processing) whenever some pixel combined channel
code is not one of the 5 recognized categories, and otherwise returns the
encoded grid. -/
def one_hot_colors_spec (x : RawGrid) : Option Grid :=
  if ∀ row ∈ x, ∀ p ∈ row, pixel_code p ∈ classes then some (one_hot_colors x)
  else none

/-! ### Helper lemmas on list indexing -/

theorem getD_map_of_lt {α β : Type} [Inhabited β] (f : α → β) (l : List α) (i : ℕ)
    (h : i < l.length) (d : β) (d' : α) : (l.map f).getD i d = f (l.getD i d') := by
  simp [List.getD_eq_getElem?_getD, List.getElem?_map, List.getElem?_eq_getElem h,
    List.getD_eq_getElem l d' h]

theorem getD_range_map {β : Type} (f : ℕ → β) (n i : ℕ) (h : i < n) (d : β) :
    ((List.range n).map f).getD i d = f i := by
  simp [List.getD_eq_getElem?_getD, List.getElem?_map, List.getElem?_range h]

theorem length_getD_map_range {β : Type} (f : ℕ → List β) (n i : ℕ) (h : i < n) :
    (((List.range n).map f).getD i []).length = (f i).length := by
  rw [getD_range_map f n i h]

/-! ### Claim C2: behavior of the encoder on invalid colors -/

theorem binarize_sum_one_of_valid (p : Pixel) (h : p ∈ valid_colors) :
    (label_binarize_row (pixel_code p)).sum = 1 := by
  fin_cases h <;> decide

theorem binarize_zero_of_invalid (p : Pixel) (hbin : binary_pixel p)
    (hnot : p ∉ valid_colors) : label_binarize_row (pixel_code p) = [0, 0, 0, 0, 0] := by
  have hp : p = (p.1, p.2.1, p.2.2) := rfl
  obtain ⟨h1 | h1, h2 | h2, h3 | h3⟩ := hbin <;> rw [h1, h2, h3] at hp <;>
    first
      | (exact absurd (by rw [hp]; decide) hnot)
      | (rw [hp]; decide)

/-- Claim C2 (corrected): the code never raises on an unrecognized color.  For
every grid position, the encoded pixel is the `label_binarize` row of its
combined channel code; a pixel from the recognized 5-color set encodes to a
valid one-hot row (sum 1), while a binary-channel pixel outside that set is
silently encoded as the all-zero row — no error is raised and no default
category is assigned. -/
theorem one_hot_colors_total_behavior (x : RawGrid) (r c : ℕ)
    (hr : r < x.length) (hc : c < (x.getD r []).length) :
    ((one_hot_colors x).getD r []).getD c []
      = label_binarize_row (pixel_code ((x.getD r []).getD c (0, 0, 0)))
    ∧ ((x.getD r []).getD c (0, 0, 0) ∈ valid_colors →
        (((one_hot_colors x).getD r []).getD c []).sum = 1)
    ∧ (binary_pixel ((x.getD r []).getD c (0, 0, 0)) →
        (x.getD r []).getD c (0, 0, 0) ∉ valid_colors →
        ((one_hot_colors x).getD r []).getD c [] = [0, 0, 0, 0, 0]) := by
  have hrow : ((one_hot_colors x).getD r []).getD c []
      = label_binarize_row (pixel_code ((x.getD r []).getD c (0, 0, 0))) := by
    unfold one_hot_colors
    rw [getD_map_of_lt _ x r hr [] []]
    rw [getD_map_of_lt _ (x.getD r []) c hc [] (0, 0, 0)]
  refine ⟨hrow, ?_, ?_⟩
  · intro hval
    rw [hrow]
    exact binarize_sum_one_of_valid _ hval
  · intro hbin hnot
    rw [hrow]
    exact binarize_zero_of_invalid _ hbin hnot

/-- Witness for `one_hot_colors_total_behavior` at a concrete 1x2 grid holding
one valid and one invalid pixel. -/
theorem one_hot_colors_total_behavior_witness :
    (0 : ℕ) < ([[(255, 0, 0), (255, 255, 255)]] : RawGrid).length ∧
    ((one_hot_colors [[(255, 0, 0), (255, 255, 255)]]).getD 0 []).getD 0 []
      = label_binarize_row (pixel_code (255, 0, 0)) :=
  ⟨by decide,
   (one_hot_colors_total_behavior [[(255, 0, 0), (255, 255, 255)]] 0 0
      (by decide) (by decide)).1⟩

/-- Counterexample for claim C2: on the invalid all-off color, the spec-side
encoder fails with a `DecodingError` (modelled as `none`), but the code's
encoder raises nothing — it returns normally, encoding the pixel as the
all-zero row. -/
theorem decoding_error_counterexample :
    one_hot_colors_spec [[(0, 0, 0)]] = none
    ∧ one_hot_colors [[(0, 0, 0)]] = [[[0, 0, 0, 0, 0]]] := by
  constructor
  · decide
  · decide

/-! ### Claim C6: round-trip through the encoder and the reference table -/

/-- Claim C6 (confirmed): for each of the 5 valid raw colors, encoding a grid of
that color and reading off the dominant category per pixel (position of the
single 1) recovers exactly the category the reference lookup table assigns to
that color's combined channel code. -/
theorem one_hot_colors_roundtrip (p : Pixel) (h : p ∈ valid_colors) :
    dominant_category (((one_hot_colors [[p]]).getD 0 []).getD 0 [])
      = reference_category (pixel_code p) := by
  fin_cases h <;> decide

/-- Witness for `one_hot_colors_roundtrip` at the first valid color. -/
theorem one_hot_colors_roundtrip_witness :
    ((255, 0, 0) : Pixel) ∈ valid_colors ∧
    dominant_category (((one_hot_colors [[((255, 0, 0) : Pixel)]]).getD 0 []).getD 0 [])
      = reference_category (pixel_code (255, 0, 0)) :=
  ⟨by decide, one_hot_colors_roundtrip (255, 0, 0) (by decide)⟩

/-! ### The neighborhood feature builder

`neighborhood_feature(x)` allocates `features = np.zeros((H, W, 5, 5))`, sets
`features[:, :, 3, :] = 1` (position 3 of the category axis is background),
then copies the four shifted grids and the grid itself into the five slots of
the last axis, and reshapes to `(H*W, 25)`.  Each numpy assignment becomes one
function below, applied innermost-first in statement order; reading the final
array at `(r, c, cat, slot)` therefore tries the statements in reverse order,
matching last-writer-wins semantics on their disjoint slot regions. -/

/-- Element read `x[r][c][k]` of an in-bounds position of a 3-d array. -/
def get3 (x : Grid) (r c k : ℕ) : ℕ :=
  ((x.getD r []).getD c []).getD k 0

/-- The width `x.shape[1]` of a grid. -/
def gridW (x : Grid) : ℕ := (x.headD []).length

/-- `features = np.zeros((x.shape[0], x.shape[1], 5, 5))`. -/
def nfZeros : ℕ → ℕ → ℕ → ℕ → ℕ := fun _ _ _ _ => 0

/-- `features[:, :, 3, :] = 1`. -/
def nfBackground (f : ℕ → ℕ → ℕ → ℕ → ℕ) : ℕ → ℕ → ℕ → ℕ → ℕ :=
  fun r c cat slot => if cat = 3 then 1 else f r c cat slot

/-- `features[:, 1:, :, 0] = x[:, :-1, :]`. -/
def nfLeft (x : Grid) (f : ℕ → ℕ → ℕ → ℕ → ℕ) : ℕ → ℕ → ℕ → ℕ → ℕ :=
  fun r c cat slot =>
    if slot = 0 ∧ 1 ≤ c ∧ c < gridW x ∧ r < x.length then get3 x r (c - 1) cat
    else f r c cat slot

/-- `features[1:, :, :, 1] = x[:-1, :, :]`. -/
def nfUp (x : Grid) (f : ℕ → ℕ → ℕ → ℕ → ℕ) : ℕ → ℕ → ℕ → ℕ → ℕ :=
  fun r c cat slot =>
    if slot = 1 ∧ 1 ≤ r ∧ r < x.length ∧ c < gridW x then get3 x (r - 1) c cat
    else f r c cat slot

/-- `features[:-1, :, :, 2] = x[1:, :, :]`. -/
def nfDown (x : Grid) (f : ℕ → ℕ → ℕ → ℕ → ℕ) : ℕ → ℕ → ℕ → ℕ → ℕ :=
  fun r c cat slot =>
    if slot = 2 ∧ r + 1 < x.length ∧ c < gridW x then get3 x (r + 1) c cat
    else f r c cat slot

/-- `features[:, :-1, :, 3] = x[:, 1:, :]`. -/
def nfRight (x : Grid) (f : ℕ → ℕ → ℕ → ℕ → ℕ) : ℕ → ℕ → ℕ → ℕ → ℕ :=
  fun r c cat slot =>
    if slot = 3 ∧ c + 1 < gridW x ∧ r < x.length then get3 x r (c + 1) cat
    else f r c cat slot

/-- `features[:, :, :, 4] = x[:, :, :]`. -/
def nfSelf (x : Grid) (f : ℕ → ℕ → ℕ → ℕ → ℕ) : ℕ → ℕ → ℕ → ℕ → ℕ :=
  fun r c cat slot =>
    if slot = 4 ∧ r < x.length ∧ c < gridW x then get3 x r c cat
    else f r c cat slot

/-- The value of `features[r][c][cat][slot]` after all six statements. -/
def nf_val (x : Grid) : ℕ → ℕ → ℕ → ℕ → ℕ :=
  nfSelf x (nfRight x (nfDown x (nfUp x (nfLeft x (nfBackground nfZeros)))))

/-- `neighborhood_feature(x)`: the final `(H, W, 5, 5)` array reshaped to
`(H*W, 25)`, row-major, so row `i` is pixel `(i / W, i % W)` and column `k`
is `(cat, slot) = (k / 5, k % 5)`. -/
def neighborhood_feature (x : Grid) : List (List ℕ) :=
  (List.range (x.length * gridW x)).map (fun i =>
    (List.range 25).map (fun k => nf_val x (i / gridW x) (i % gridW x) (k / 5) (k % 5)))

/-- The background one-hot vector: category 3 on, all others off. -/
def background_onehot : List ℕ := [0, 0, 0, 1, 0]

/-- Slot `j` of node `(r, c)` as a 5-vector, read out of the flattened feature
matrix at row `r * W + c`, entries `cat * 5 + j` for `cat = 0..4`. -/
def node_slot (x : Grid) (r c j : ℕ) : List ℕ :=
  (List.range 5).map (fun cat =>
    ((neighborhood_feature x).getD (r * gridW x + c) []).getD (cat * 5 + j) 0)

/-! ### Grid edges and the prepare_data loop body -/

/-- Modelled from the spec: `make_grid_edges` lives in `pystruct.utils`, which
is not among the sources at hand.  Per the spec, rightward edges pair
`NodeIndex(r, c)` with `NodeIndex(r, c+1)` for all `c < W-1` and downward edges
pair `NodeIndex(r, c)` with `NodeIndex(r+1, c)` for all `r < H-1`, each list
enumerated row-major over the source node, with `NodeIndex(r, c) = r*W + c`. -/
def make_grid_edges (H W : ℕ) : List (ℕ × ℕ) × List (ℕ × ℕ) :=
  ((List.range H).flatMap (fun r =>
      (List.range (W - 1)).map (fun c => (r * W + c, r * W + c + 1))),
   (List.range (H - 1)).flatMap (fun r =>
      (List.range W).map (fun c => (r * W + c, (r + 1) * W + c))))

/-- Modelled from the spec: `edge_list_to_features` lives in `pystruct.utils`,
which is not among the sources at hand.  Per the spec, each edge receives a
2-length one-hot direction indicator — the horizontal indicator for every edge
of the rightward list, the vertical indicator for every edge of the downward
list — stacked in edge-list concatenation order. -/
def edge_list_to_features (right down : List (ℕ × ℕ)) : List (List ℕ) :=
  right.map (fun _ => [1, 0]) ++ down.map (fun _ => [0, 1])

/-- `np.zeros((e, f, s))` as nested lists. -/
def zeros3 (e f s : ℕ) : List (List (List ℕ)) :=
  List.replicate e (List.replicate f (List.replicate s 0))

/-- One numpy statement `ef[lo:hi, :, slot] = rows` on an `(E, F, S)` array:
rows `lo..hi-1` get column `slot` of their last axis replaced by the matching
row of `rows`; all other entries are unchanged. -/
def slice_set (ef : List (List (List ℕ))) (lo hi slot : ℕ) (rows : List (List ℕ)) :
    List (List (List ℕ)) :=
  (List.range ef.length).map (fun i =>
    if lo ≤ i ∧ i < hi then
      (List.range (ef.getD i []).length).map (fun f =>
        (List.range ((ef.getD i []).getD f []).length).map (fun t =>
          if t = slot then (rows.getD (i - lo) []).getD f 0
          else ((ef.getD i []).getD f []).getD t 0))
    else ef.getD i [])

/-- The local variables of one iteration of the `prepare_data` loop. -/
structure BodyState where
  x : Grid
  right : List (ℕ × ℕ)
  down : List (ℕ × ℕ)
  edges : List (ℕ × ℕ)
  features : List (List ℕ)
  edge_features_directions : List (List ℕ)
  edge_features : List (List (List ℕ))

/-- Loop entry: only the sample `x` is bound. -/
def body_init (x : Grid) : BodyState :=
  ⟨x, [], [], [], [], [], []⟩

/-- `right, down = make_grid_edges(x, return_lists=True)`. -/
def stmt_grid_edges (s : BodyState) : BodyState :=
  { s with right := (make_grid_edges s.x.length (gridW s.x)).1,
           down := (make_grid_edges s.x.length (gridW s.x)).2 }

/-- `edges = np.vstack([right, down])`. -/
def stmt_vstack_edges (s : BodyState) : BodyState :=
  { s with edges := s.right ++ s.down }

/-- `features = neighborhood_feature(x)`. -/
def stmt_features (s : BodyState) : BodyState :=
  { s with features := neighborhood_feature s.x }

/-- `edge_features_directions = edge_list_to_features([right, down])`. -/
def stmt_edge_directions (s : BodyState) : BodyState :=
  { s with edge_features_directions := edge_list_to_features s.right s.down }

/-- `edge_features = np.zeros((edges.shape[0], features.shape[1], 4))`. -/
def stmt_ef_alloc (s : BodyState) : BodyState :=
  { s with edge_features := zeros3 s.edges.length (s.features.headD []).length 4 }

/-- `edge_features[:len(right), :, 0] = features[right[:, 0]]`. -/
def stmt_ef_right_src (s : BodyState) : BodyState :=
  let rows := s.right.map (fun e => s.features.getD e.1 [])
  { s with edge_features := slice_set s.edge_features 0 s.right.length 0 rows }

/-- `edge_features[:len(right), :, 1] = features[right[:, 1]]`. -/
def stmt_ef_right_tgt (s : BodyState) : BodyState :=
  let rows := s.right.map (fun e => s.features.getD e.2 [])
  { s with edge_features := slice_set s.edge_features 0 s.right.length 1 rows }

/-- `edge_features[len(right):, :, 0] = features[down[:, 0]]`. -/
def stmt_ef_down_src (s : BodyState) : BodyState :=
  let rows := s.down.map (fun e => s.features.getD e.1 [])
  { s with edge_features :=
      slice_set s.edge_features s.right.length s.edge_features.length 0 rows }

/-- `edge_features[len(right):, :, 1] = features[down[:, 1]]`. -/
def stmt_ef_down_tgt (s : BodyState) : BodyState :=
  let rows := s.down.map (fun e => s.features.getD e.2 [])
  { s with edge_features :=
      slice_set s.edge_features s.right.length s.edge_features.length 1 rows }

/-- One full iteration of the `prepare_data` loop body on sample `x`. -/
def body_run (x : Grid) : BodyState :=
  stmt_ef_down_tgt (stmt_ef_down_src (stmt_ef_right_tgt (stmt_ef_right_src
    (stmt_ef_alloc (stmt_edge_directions (stmt_features (stmt_vstack_edges
      (stmt_grid_edges (body_init x)))))))))

/-- `prepare_data(X)`: per sample, append `(features, edges,
edge_features_directions)` to `X_directions` and `(features, edges,
edge_features)` to `X_edge_features`; return both batches. -/
def prepare_data (X : List Grid) :
    List (List (List ℕ) × List (ℕ × ℕ) × List (List ℕ))
      × List (List (List ℕ) × List (ℕ × ℕ) × List (List (List ℕ))) :=
  (X.map (fun x => ((body_run x).features, (body_run x).edges,
      (body_run x).edge_features_directions)),
   X.map (fun x => ((body_run x).features, (body_run x).edges,
      (body_run x).edge_features)))

/-! ### Characterizing slice_set and zeros3 -/

theorem getElem?_replicate_of_lt {α : Type} (a : α) (n i : ℕ) (h : i < n) :
    (List.replicate n a)[i]? = some a := by
  simp [List.getElem?_replicate, h]

theorem getD_replicate_of_lt {α : Type} (a : α) (n i : ℕ) (h : i < n) (d : α) :
    (List.replicate n a).getD i d = a := by
  simp [List.getD_eq_getElem?_getD, getElem?_replicate_of_lt a n i h]

theorem zeros3_length (e f s : ℕ) : (zeros3 e f s).length = e := by
  simp [zeros3]

theorem zeros3_getD (e f s i : ℕ) (h : i < e) :
    (zeros3 e f s).getD i [] = List.replicate f (List.replicate s 0) :=
  getD_replicate_of_lt _ e i h []

theorem getD_replicate_eq {α : Type} (a : α) (n i : ℕ) (d : α) :
    (List.replicate n a).getD i d = if i < n then a else d := by
  by_cases h : i < n
  · rw [if_pos h]
    exact getD_replicate_of_lt a n i h d
  · rw [if_neg h]
    exact List.getD_eq_default _ _ (by simpa using Nat.le_of_not_lt h)

theorem get3_zeros3 (e f s i j t : ℕ) : get3 (zeros3 e f s) i j t = 0 := by
  unfold get3 zeros3
  rw [getD_replicate_eq]
  by_cases hi : i < e
  · rw [if_pos hi, getD_replicate_eq]
    by_cases hj : j < f
    · rw [if_pos hj, getD_replicate_eq]
      by_cases ht : t < s
      · rw [if_pos ht]
      · rw [if_neg ht]
    · rw [if_neg hj]
      simp
  · rw [if_neg hi]
    simp

theorem slice_set_length (ef : List (List (List ℕ))) (lo hi slot : ℕ)
    (rows : List (List ℕ)) : (slice_set ef lo hi slot rows).length = ef.length := by
  simp [slice_set]

theorem slice_set_getD (ef : List (List (List ℕ))) (lo hi slot : ℕ)
    (rows : List (List ℕ)) (i : ℕ) (h : i < ef.length) :
    (slice_set ef lo hi slot rows).getD i [] =
      if lo ≤ i ∧ i < hi then
        (List.range (ef.getD i []).length).map (fun f =>
          (List.range ((ef.getD i []).getD f []).length).map (fun t =>
            if t = slot then (rows.getD (i - lo) []).getD f 0
            else ((ef.getD i []).getD f []).getD t 0))
      else ef.getD i [] := by
  unfold slice_set
  rw [getD_range_map _ _ _ h]

theorem slice_set_row_length (ef : List (List (List ℕ))) (lo hi slot : ℕ)
    (rows : List (List ℕ)) (i : ℕ) (h : i < ef.length) :
    ((slice_set ef lo hi slot rows).getD i []).length = (ef.getD i []).length := by
  rw [slice_set_getD ef lo hi slot rows i h]
  by_cases hreg : lo ≤ i ∧ i < hi
  · rw [if_pos hreg]
    simp
  · rw [if_neg hreg]

theorem slice_set_inner_length (ef : List (List (List ℕ))) (lo hi slot : ℕ)
    (rows : List (List ℕ)) (i f : ℕ) (h : i < ef.length)
    (hf : f < (ef.getD i []).length) :
    (((slice_set ef lo hi slot rows).getD i []).getD f []).length
      = ((ef.getD i []).getD f []).length := by
  rw [slice_set_getD ef lo hi slot rows i h]
  by_cases hreg : lo ≤ i ∧ i < hi
  · rw [if_pos hreg, getD_range_map _ _ _ hf]
    simp
  · rw [if_neg hreg]

theorem slice_set_entry (ef : List (List (List ℕ))) (lo hi slot : ℕ)
    (rows : List (List ℕ)) (i f t : ℕ) (h : i < ef.length)
    (hf : f < (ef.getD i []).length) (ht : t < ((ef.getD i []).getD f []).length) :
    get3 (slice_set ef lo hi slot rows) i f t
      = if lo ≤ i ∧ i < hi ∧ t = slot then (rows.getD (i - lo) []).getD f 0
        else get3 ef i f t := by
  unfold get3
  rw [slice_set_getD ef lo hi slot rows i h]
  by_cases hreg : lo ≤ i ∧ i < hi
  · rw [if_pos hreg, getD_range_map _ _ _ hf, getD_range_map _ _ _ ht]
    by_cases hts : t = slot
    · rw [if_pos hts, if_pos ⟨hreg.1, hreg.2, hts⟩]
    · rw [if_neg hts, if_neg (by tauto)]
  · rw [if_neg hreg, if_neg (by tauto)]

/-! ### Fields of the loop body state -/

/-- The rightward edge list of a sample. -/
def grid_right (x : Grid) : List (ℕ × ℕ) := (make_grid_edges x.length (gridW x)).1

/-- The downward edge list of a sample. -/
def grid_down (x : Grid) : List (ℕ × ℕ) := (make_grid_edges x.length (gridW x)).2

/-- The stacked edge array of a sample. -/
def grid_edges (x : Grid) : List (ℕ × ℕ) := grid_right x ++ grid_down x

theorem body_run_x (x : Grid) : (body_run x).x = x := rfl

theorem body_run_right (x : Grid) : (body_run x).right = grid_right x := rfl

theorem body_run_down (x : Grid) : (body_run x).down = grid_down x := rfl

theorem body_run_edges (x : Grid) : (body_run x).edges = grid_edges x := rfl

theorem body_run_features (x : Grid) :
    (body_run x).features = neighborhood_feature x := rfl

theorem body_run_directions (x : Grid) :
    (body_run x).edge_features_directions
      = edge_list_to_features (grid_right x) (grid_down x) := rfl

/-- The four `slice_set` statements applied to the zero allocation, spelled as
the states through which `edge_features` passes in `body_run`. -/
def ef_stage0 (x : Grid) : List (List (List ℕ)) :=
  zeros3 (grid_edges x).length ((neighborhood_feature x).headD []).length 4

def ef_stage1 (x : Grid) : List (List (List ℕ)) :=
  slice_set (ef_stage0 x) 0 (grid_right x).length 0
    ((grid_right x).map (fun e => (neighborhood_feature x).getD e.1 []))

def ef_stage2 (x : Grid) : List (List (List ℕ)) :=
  slice_set (ef_stage1 x) 0 (grid_right x).length 1
    ((grid_right x).map (fun e => (neighborhood_feature x).getD e.2 []))

def ef_stage3 (x : Grid) : List (List (List ℕ)) :=
  slice_set (ef_stage2 x) (grid_right x).length (ef_stage2 x).length 0
    ((grid_down x).map (fun e => (neighborhood_feature x).getD e.1 []))

def ef_stage4 (x : Grid) : List (List (List ℕ)) :=
  slice_set (ef_stage3 x) (grid_right x).length (ef_stage3 x).length 1
    ((grid_down x).map (fun e => (neighborhood_feature x).getD e.2 []))

set_option maxHeartbeats 1000000 in
theorem body_run_edge_features (x : Grid) :
    (body_run x).edge_features = ef_stage4 x := rfl

/-! ### Sizes of the edge lists and the feature matrix -/

theorem length_flatMap_const_inner {alpha : Type} (n m : ℕ) (g : ℕ → ℕ → alpha) :
    ((List.range n).flatMap (fun r => (List.range m).map (g r))).length = n * m := by
  rw [List.length_flatMap]
  have h : List.map (List.length ∘ fun r => List.map (g r) (List.range m)) (List.range n)
      = List.replicate n m := by
    simp [Function.comp_def]
  rw [h, List.sum_replicate, smul_eq_mul]

theorem grid_right_length (x : Grid) :
    (grid_right x).length = x.length * (gridW x - 1) := by
  unfold grid_right make_grid_edges
  exact length_flatMap_const_inner x.length (gridW x - 1) _

theorem grid_down_length (x : Grid) :
    (grid_down x).length = (x.length - 1) * gridW x := by
  unfold grid_down make_grid_edges
  exact length_flatMap_const_inner (x.length - 1) (gridW x) _

theorem neighborhood_feature_length (x : Grid) :
    (neighborhood_feature x).length = x.length * gridW x := by
  simp [neighborhood_feature]

theorem neighborhood_feature_row (x : Grid) (i : ℕ) (h : i < x.length * gridW x) :
    (neighborhood_feature x).getD i []
      = (List.range 25).map (fun k =>
          nf_val x (i / gridW x) (i % gridW x) (k / 5) (k % 5)) := by
  unfold neighborhood_feature
  exact getD_range_map _ _ _ h []

theorem neighborhood_feature_row_length (x : Grid) (i : ℕ)
    (h : i < x.length * gridW x) :
    ((neighborhood_feature x).getD i []).length = 25 := by
  rw [neighborhood_feature_row x i h]
  simp

theorem neighborhood_feature_entry (x : Grid) (i k : ℕ)
    (h : i < x.length * gridW x) (hk : k < 25) :
    ((neighborhood_feature x).getD i []).getD k 0
      = nf_val x (i / gridW x) (i % gridW x) (k / 5) (k % 5) := by
  rw [neighborhood_feature_row x i h]
  exact getD_range_map _ _ _ hk 0

theorem headD_eq_getD_zero {α : Type} (l : List α) (d : α) : l.headD d = l.getD 0 d := by
  cases l <;> simp

theorem pos_of_mul_pos (a b : ℕ) (h : 0 < a * b) : 0 < a ∧ 0 < b := by
  constructor
  · rcases Nat.eq_zero_or_pos a with h0 | h0
    · rw [h0] at h
      simp at h
    · exact h0
  · rcases Nat.eq_zero_or_pos b with h0 | h0
    · rw [h0] at h
      simp at h
    · exact h0

/-- A sample with at least one edge has positive height and width. -/
theorem dims_pos_of_edge (x : Grid) (h : 0 < (grid_edges x).length) :
    0 < x.length ∧ 0 < gridW x := by
  unfold grid_edges at h
  rw [List.length_append, grid_right_length, grid_down_length] at h
  rcases Nat.eq_zero_or_pos (x.length * (gridW x - 1)) with h1 | h1
  · rw [h1] at h
    simp only [Nat.zero_add] at h
    have := pos_of_mul_pos _ _ h
    omega
  · have := pos_of_mul_pos _ _ h1
    omega

/-- With at least one edge, the feature-matrix width read off by the
allocation statement is 25. -/
theorem feature_width_of_edge (x : Grid) (h : 0 < (grid_edges x).length) :
    ((neighborhood_feature x).headD []).length = 25 := by
  obtain ⟨hH, hW⟩ := dims_pos_of_edge x h
  rw [headD_eq_getD_zero]
  exact neighborhood_feature_row_length x 0 (Nat.mul_pos hH hW)

/-! ### Shape bookkeeping through the slice assignments -/

/-- `A` is an `(e, f, s)`-shaped nested array on its in-bounds part. -/
def shape3 (A : List (List (List ℕ))) (e f s : ℕ) : Prop :=
  A.length = e ∧ ∀ i, i < e →
    (A.getD i []).length = f ∧ ∀ j, j < f → ((A.getD i []).getD j []).length = s

theorem shape3_zeros3 (e f s : ℕ) : shape3 (zeros3 e f s) e f s := by
  refine ⟨zeros3_length e f s, fun i hi => ?_⟩
  rw [zeros3_getD e f s i hi]
  refine ⟨by simp, fun j hj => ?_⟩
  rw [getD_replicate_of_lt _ f j hj []]
  simp

theorem shape3_slice_set (A : List (List (List ℕ))) (e f s lo hb slot : ℕ)
    (rows : List (List ℕ)) (h : shape3 A e f s) :
    shape3 (slice_set A lo hb slot rows) e f s := by
  obtain ⟨hlen, hrow⟩ := h
  refine ⟨by rw [slice_set_length, hlen], fun i hi => ?_⟩
  have hiA : i < A.length := by rw [hlen]; exact hi
  rw [slice_set_row_length A lo hb slot rows i hiA]
  refine ⟨(hrow i hi).1, fun j hj => ?_⟩
  have hjA : j < (A.getD i []).length := by rw [(hrow i hi).1]; exact hj
  rw [slice_set_inner_length A lo hb slot rows i j hiA hjA]
  exact (hrow i hi).2 j hj

theorem slice_set_entry_shape (A : List (List (List ℕ))) (e f s lo hb slot : ℕ)
    (rows : List (List ℕ)) (hsh : shape3 A e f s) (i j t : ℕ)
    (hi : i < e) (hj : j < f) (ht : t < s) :
    get3 (slice_set A lo hb slot rows) i j t
      = if lo ≤ i ∧ i < hb ∧ t = slot then (rows.getD (i - lo) []).getD j 0
        else get3 A i j t := by
  obtain ⟨hlen, hrow⟩ := hsh
  have hiA : i < A.length := by rw [hlen]; exact hi
  have hjA : j < (A.getD i []).length := by rw [(hrow i hi).1]; exact hj
  have htA : t < ((A.getD i []).getD j []).length := by rw [(hrow i hi).2 j hj]; exact ht
  exact slice_set_entry A lo hb slot rows i j t hiA hjA htA

theorem getD_append_of_lt {α : Type} (l l' : List α) (i : ℕ) (d : α)
    (h : i < l.length) : (l ++ l').getD i d = l.getD i d := by
  simp [List.getD_eq_getElem?_getD, List.getElem?_append_left h]

theorem getD_append_of_ge {α : Type} (l l' : List α) (i : ℕ) (d : α)
    (h : l.length ≤ i) : (l ++ l').getD i d = l'.getD (i - l.length) d := by
  simp [List.getD_eq_getElem?_getD, List.getElem?_append_right h]

theorem grid_edges_length_split (x : Grid) :
    (grid_edges x).length = (grid_right x).length + (grid_down x).length := by
  unfold grid_edges
  exact List.length_append _ _

/-- Entry `(i, f, t)` of the final node-feature-pair edge feature array: slot 0
holds the source node's feature, slot 1 the target node's feature, slots 2 and
3 stay zero — with source and target read from the stacked edge list. -/
theorem ef_stage4_entry (x : Grid) (i f t : ℕ)
    (hi : i < (grid_edges x).length) (hf : f < 25) (ht : t < 4) :
    get3 (ef_stage4 x) i f t
      = if t = 0 then
          ((neighborhood_feature x).getD ((grid_edges x).getD i (0, 0)).1 []).getD f 0
        else if t = 1 then
          ((neighborhood_feature x).getD ((grid_edges x).getD i (0, 0)).2 []).getD f 0
        else 0 := by
  have hE : 0 < (grid_edges x).length := Nat.lt_of_le_of_lt (Nat.zero_le i) hi
  have hF : ((neighborhood_feature x).headD []).length = 25 := feature_width_of_edge x hE
  have hf2 : f < ((neighborhood_feature x).headD []).length := by rw [hF]; exact hf
  have sh0 : shape3 (ef_stage0 x) (grid_edges x).length
      ((neighborhood_feature x).headD []).length 4 := shape3_zeros3 _ _ _
  have sh1 : shape3 (ef_stage1 x) (grid_edges x).length
      ((neighborhood_feature x).headD []).length 4 :=
    shape3_slice_set _ _ _ _ _ _ _ _ sh0
  have sh2 : shape3 (ef_stage2 x) (grid_edges x).length
      ((neighborhood_feature x).headD []).length 4 :=
    shape3_slice_set _ _ _ _ _ _ _ _ sh1
  have sh3 : shape3 (ef_stage3 x) (grid_edges x).length
      ((neighborhood_feature x).headD []).length 4 :=
    shape3_slice_set _ _ _ _ _ _ _ _ sh2
  have hlen2 : (ef_stage2 x).length = (grid_edges x).length := sh2.1
  have hlen3 : (ef_stage3 x).length = (grid_edges x).length := sh3.1
  unfold ef_stage4
  rw [slice_set_entry_shape _ _ _ _ _ _ _ _ sh3 i f t hi hf2 ht, hlen3]
  unfold ef_stage3
  rw [slice_set_entry_shape _ _ _ _ _ _ _ _ sh2 i f t hi hf2 ht, hlen2]
  unfold ef_stage2
  rw [slice_set_entry_shape _ _ _ _ _ _ _ _ sh1 i f t hi hf2 ht]
  unfold ef_stage1
  rw [slice_set_entry_shape _ _ _ _ _ _ _ _ sh0 i f t hi hf2 ht]
  unfold ef_stage0
  rw [get3_zeros3]
  by_cases hiR : i < (grid_right x).length
  · have h1 : (grid_edges x).getD i (0, 0) = (grid_right x).getD i (0, 0) := by
      unfold grid_edges
      exact getD_append_of_lt _ _ _ _ hiR
    have hr0 : ((grid_right x).map
          (fun e => (neighborhood_feature x).getD e.1 [])).getD (i - 0) []
        = (neighborhood_feature x).getD ((grid_right x).getD i (0, 0)).1 [] := by
      rw [Nat.sub_zero]
      exact getD_map_of_lt _ _ _ hiR [] (0, 0)
    have hr1 : ((grid_right x).map
          (fun e => (neighborhood_feature x).getD e.2 [])).getD (i - 0) []
        = (neighborhood_feature x).getD ((grid_right x).getD i (0, 0)).2 [] := by
      rw [Nat.sub_zero]
      exact getD_map_of_lt _ _ _ hiR [] (0, 0)
    have hnR : ¬ (grid_right x).length ≤ i := by omega
    rw [h1, hr0, hr1]
    interval_cases t <;> simp [hiR, hnR]
  · have hR : (grid_right x).length ≤ i := Nat.le_of_not_lt hiR
    have h1 : (grid_edges x).getD i (0, 0)
        = (grid_down x).getD (i - (grid_right x).length) (0, 0) := by
      unfold grid_edges
      exact getD_append_of_ge _ _ _ _ hR
    have hiD : i - (grid_right x).length < (grid_down x).length := by
      have := grid_edges_length_split x
      omega
    have hd0 : ((grid_down x).map
          (fun e => (neighborhood_feature x).getD e.1 [])).getD
            (i - (grid_right x).length) []
        = (neighborhood_feature x).getD
            ((grid_down x).getD (i - (grid_right x).length) (0, 0)).1 [] :=
      getD_map_of_lt _ _ _ hiD [] (0, 0)
    have hd1 : ((grid_down x).map
          (fun e => (neighborhood_feature x).getD e.2 [])).getD
            (i - (grid_right x).length) []
        = (neighborhood_feature x).getD
            ((grid_down x).getD (i - (grid_right x).length) (0, 0)).2 [] :=
      getD_map_of_lt _ _ _ hiD [] (0, 0)
    rw [h1, hd0, hd1]
    interval_cases t <;> simp [hiR, hR, hi]

theorem ef_stage4_shape (x : Grid) :
    shape3 (ef_stage4 x) (grid_edges x).length
      ((neighborhood_feature x).headD []).length 4 :=
  shape3_slice_set _ _ _ _ _ _ _ _ (shape3_slice_set _ _ _ _ _ _ _ _
    (shape3_slice_set _ _ _ _ _ _ _ _ (shape3_slice_set _ _ _ _ _ _ _ _
      (shape3_zeros3 _ _ _))))

/-! ### Claims C1, C3 and C10: the node-feature-pair edge features -/

/-- Claim C1 (amended, corrected): for every sample and every edge, the
node-feature-pair edge feature has shape (25, 4) — the full per-sample array
has shape (E, 25, 4), not (E, 25, 2) — with the source node's feature vector
at slot 0 and the target node's feature vector at slot 1 of the last
dimension (slots 2 and 3 exist but are never written). -/
theorem pair_edge_feature_slots (x : Grid) (i f : ℕ)
    (hi : i < (grid_edges x).length) (hf : f < 25) :
    (body_run x).edge_features.length = (grid_edges x).length
    ∧ (((body_run x).edge_features.getD i []).getD f []).length = 4
    ∧ get3 (body_run x).edge_features i f 0
        = ((neighborhood_feature x).getD ((grid_edges x).getD i (0, 0)).1 []).getD f 0
    ∧ get3 (body_run x).edge_features i f 1
        = ((neighborhood_feature x).getD ((grid_edges x).getD i (0, 0)).2 []).getD f 0 := by
  have hE : 0 < (grid_edges x).length := Nat.lt_of_le_of_lt (Nat.zero_le i) hi
  have hF := feature_width_of_edge x hE
  have hf2 : f < ((neighborhood_feature x).headD []).length := by rw [hF]; exact hf
  rw [body_run_edge_features]
  refine ⟨(ef_stage4_shape x).1, ?_, ?_, ?_⟩
  · rw [((ef_stage4_shape x).2 i hi).2 f hf2]
  · rw [ef_stage4_entry x i f 0 hi hf (by omega)]
    simp
  · rw [ef_stage4_entry x i f 1 hi hf (by omega)]
    simp

/-- Witness for `pair_edge_feature_slots` on a 2x2 all-background grid. -/
theorem pair_edge_feature_slots_witness :
    (0 : ℕ) < (grid_edges [[background_onehot, background_onehot],
                           [background_onehot, background_onehot]]).length ∧
    (body_run [[background_onehot, background_onehot],
               [background_onehot, background_onehot]]).edge_features.length
      = (grid_edges [[background_onehot, background_onehot],
                     [background_onehot, background_onehot]]).length :=
  ⟨by decide,
   (pair_edge_feature_slots [[background_onehot, background_onehot],
      [background_onehot, background_onehot]] 0 0 (by decide) (by decide)).1⟩

/-- Counterexample for claim C1 as stated: on a 1x2 all-background grid, the
edge feature of the single edge does not have 2 entries along the last
dimension (it has 4). -/
theorem pair_edge_feature_last_dim_counterexample :
    (((body_run [[background_onehot, background_onehot]]).edge_features.getD 0 []).getD
        0 []).length ≠ 2 := by
  decide

/-- Claim C3 (confirmed): the stacked edge array is exactly the rightward list
followed by the downward list, and for every index i into it, slot 0 of the
edge feature at i holds the node feature vector of `edges[i][0]` and slot 1
that of `edges[i][1]` — uniformly over both segments. -/
theorem edge_feature_alignment (x : Grid) (i f : ℕ)
    (hi : i < (body_run x).edges.length) (hf : f < 25) :
    (body_run x).edges = grid_right x ++ grid_down x
    ∧ get3 (body_run x).edge_features i f 0
        = ((neighborhood_feature x).getD ((body_run x).edges.getD i (0, 0)).1 []).getD f 0
    ∧ get3 (body_run x).edge_features i f 1
        = ((neighborhood_feature x).getD ((body_run x).edges.getD i (0, 0)).2 []).getD f 0 := by
  have hi2 : i < (grid_edges x).length := hi
  rw [body_run_edges, body_run_edge_features]
  refine ⟨rfl, ?_, ?_⟩
  · rw [ef_stage4_entry x i f 0 hi2 hf (by omega)]
    simp [grid_edges]
  · rw [ef_stage4_entry x i f 1 hi2 hf (by omega)]
    simp [grid_edges]

/-- Witness for `edge_feature_alignment` on a 2x2 all-background grid. -/
theorem edge_feature_alignment_witness :
    (1 : ℕ) < (body_run [[background_onehot, background_onehot],
                         [background_onehot, background_onehot]]).edges.length ∧
    (body_run [[background_onehot, background_onehot],
               [background_onehot, background_onehot]]).edges
      = grid_right [[background_onehot, background_onehot],
                    [background_onehot, background_onehot]]
        ++ grid_down [[background_onehot, background_onehot],
                      [background_onehot, background_onehot]] :=
  ⟨by decide,
   (edge_feature_alignment [[background_onehot, background_onehot],
      [background_onehot, background_onehot]] 1 7 (by decide) (by decide)).1⟩

/-- Claim C10 (confirmed): the pair edge feature array is allocated with 4
slots per edge along the last dimension, and slots 2 and 3 are never written:
they stay all-zero for every edge and every feature coordinate. -/
theorem pair_edge_feature_upper_slots_zero (x : Grid) (i f : ℕ)
    (hi : i < (grid_edges x).length) (hf : f < 25) :
    (((body_run x).edge_features.getD i []).getD f []).length = 4
    ∧ get3 (body_run x).edge_features i f 2 = 0
    ∧ get3 (body_run x).edge_features i f 3 = 0 := by
  have hE : 0 < (grid_edges x).length := Nat.lt_of_le_of_lt (Nat.zero_le i) hi
  have hF := feature_width_of_edge x hE
  have hf2 : f < ((neighborhood_feature x).headD []).length := by rw [hF]; exact hf
  rw [body_run_edge_features]
  refine ⟨((ef_stage4_shape x).2 i hi).2 f hf2, ?_, ?_⟩
  · rw [ef_stage4_entry x i f 2 hi hf (by omega)]
    simp
  · rw [ef_stage4_entry x i f 3 hi hf (by omega)]
    simp

/-- Witness for `pair_edge_feature_upper_slots_zero` on a 1x2 grid. -/
theorem pair_edge_feature_upper_slots_zero_witness :
    (0 : ℕ) < (grid_edges [[background_onehot, background_onehot]]).length ∧
    get3 (body_run [[background_onehot, background_onehot]]).edge_features 0 0 2 = 0 :=
  ⟨by decide,
   (pair_edge_feature_upper_slots_zero [[background_onehot, background_onehot]]
      0 0 (by decide) (by decide)).2.1⟩

/-! ### Claim C7: the grid-graph builder -/

theorem node_index_inj (W r1 c1 r2 c2 : ℕ) (h1 : c1 < W) (h2 : c2 < W)
    (h : r1 * W + c1 = r2 * W + c2) : r1 = r2 ∧ c1 = c2 := by
  have hW : 0 < W := Nat.lt_of_le_of_lt (Nat.zero_le c1) h1
  have d1 : (r1 * W + c1) / W = r1 := by
    rw [Nat.mul_comm r1 W, Nat.mul_add_div hW]
    simp [Nat.div_eq_of_lt h1]
  have d2 : (r2 * W + c2) / W = r2 := by
    rw [Nat.mul_comm r2 W, Nat.mul_add_div hW]
    simp [Nat.div_eq_of_lt h2]
  have m1 : (r1 * W + c1) % W = c1 := by
    rw [Nat.mul_comm r1 W, Nat.mul_add_mod, Nat.mod_eq_of_lt h1]
  have m2 : (r2 * W + c2) % W = c2 := by
    rw [Nat.mul_comm r2 W, Nat.mul_add_mod, Nat.mod_eq_of_lt h2]
  constructor
  · rw [← d1, ← d2, h]
  · rw [← m1, ← m2, h]

theorem mem_make_grid_edges_right (H W : ℕ) (e : ℕ × ℕ) :
    e ∈ (make_grid_edges H W).1
      ↔ ∃ r c, r < H ∧ c < W - 1 ∧ e = (r * W + c, r * W + c + 1) := by
  unfold make_grid_edges
  simp only [List.mem_flatMap, List.mem_map, List.mem_range]
  constructor
  · rintro ⟨r, hr, c, hc, rfl⟩
    exact ⟨r, c, hr, hc, rfl⟩
  · rintro ⟨r, c, hr, hc, rfl⟩
    exact ⟨r, hr, c, hc, rfl⟩

theorem mem_make_grid_edges_down (H W : ℕ) (e : ℕ × ℕ) :
    e ∈ (make_grid_edges H W).2
      ↔ ∃ r c, r < H - 1 ∧ c < W ∧ e = (r * W + c, (r + 1) * W + c) := by
  unfold make_grid_edges
  simp only [List.mem_flatMap, List.mem_map, List.mem_range]
  constructor
  · rintro ⟨r, hr, c, hc, rfl⟩
    exact ⟨r, c, hr, hc, rfl⟩
  · rintro ⟨r, c, hr, hc, rfl⟩
    exact ⟨r, hr, c, hc, rfl⟩

theorem make_grid_edges_right_nodup (H W : ℕ) : (make_grid_edges H W).1.Nodup := by
  unfold make_grid_edges
  rw [List.nodup_flatMap]
  constructor
  · intro r _
    refine List.Nodup.map ?_ (List.nodup_range _)
    intro c1 c2 hcc
    have := congrArg Prod.fst hcc
    simp only at this
    omega
  · have hp : (List.range H).Pairwise (· < ·) := List.pairwise_lt_range H
    refine hp.imp ?_
    intro r1 r2 hlt e he1 he2
    simp only [List.mem_map, List.mem_range] at he1 he2
    obtain ⟨c1, hc1, he1⟩ := he1
    obtain ⟨c2, hc2, he2⟩ := he2
    rw [← he2] at he1
    have hfst := congrArg Prod.fst he1
    simp only at hfst
    have hc1W : c1 < W := by omega
    have hc2W : c2 < W := by omega
    have := node_index_inj W r1 c1 r2 c2 hc1W hc2W hfst
    omega

theorem make_grid_edges_down_nodup (H W : ℕ) : (make_grid_edges H W).2.Nodup := by
  unfold make_grid_edges
  rw [List.nodup_flatMap]
  constructor
  · intro r _
    refine List.Nodup.map ?_ (List.nodup_range _)
    intro c1 c2 hcc
    have := congrArg Prod.fst hcc
    simp only at this
    omega
  · have hp : (List.range (H - 1)).Pairwise (· < ·) := List.pairwise_lt_range (H - 1)
    refine hp.imp ?_
    intro r1 r2 hlt e he1 he2
    simp only [List.mem_map, List.mem_range] at he1 he2
    obtain ⟨c1, hc1, he1⟩ := he1
    obtain ⟨c2, hc2, he2⟩ := he2
    rw [← he2] at he1
    have hfst := congrArg Prod.fst he1
    simp only at hfst
    have := node_index_inj W r1 c1 r2 c2 hc1 hc2 hfst
    omega

theorem make_grid_edges_disjoint (H W : ℕ) :
    (make_grid_edges H W).1.Disjoint (make_grid_edges H W).2 := by
  intro e he1 he2
  rw [mem_make_grid_edges_right] at he1
  rw [mem_make_grid_edges_down] at he2
  obtain ⟨r1, c1, hr1, hc1, he1⟩ := he1
  obtain ⟨r2, c2, hr2, hc2, he2⟩ := he2
  rw [he2] at he1
  have hfst := congrArg Prod.fst he1
  have hsnd := congrArg Prod.snd he1
  simp only at hfst hsnd
  have : (r2 + 1) * W + c2 = r2 * W + c2 + W := by ring
  omega

/-- Claim C7 (confirmed): for every H x W grid, the builder returns exactly
H*(W-1) rightward and (H-1)*W downward edges, the union of the two lists has
no duplicate edge and no self-loop, and every edge pairs row-major flattened
node indices of horizontally respectively vertically adjacent cells. -/
theorem make_grid_edges_spec (H W : ℕ) :
    (make_grid_edges H W).1.length = H * (W - 1)
    ∧ (make_grid_edges H W).2.length = (H - 1) * W
    ∧ ((make_grid_edges H W).1 ++ (make_grid_edges H W).2).Nodup
    ∧ (∀ e ∈ (make_grid_edges H W).1 ++ (make_grid_edges H W).2, e.1 ≠ e.2)
    ∧ (∀ e ∈ (make_grid_edges H W).1,
        ∃ r c, r < H ∧ c + 1 < W ∧ e = (r * W + c, r * W + c + 1))
    ∧ (∀ e ∈ (make_grid_edges H W).2,
        ∃ r c, r + 1 < H ∧ c < W ∧ e = (r * W + c, (r + 1) * W + c)) := by
  refine ⟨?_, ?_, ?_, ?_, ?_, ?_⟩
  · exact length_flatMap_const_inner H (W - 1) _
  · exact length_flatMap_const_inner (H - 1) W _
  · rw [List.nodup_append]
    exact ⟨make_grid_edges_right_nodup H W, make_grid_edges_down_nodup H W,
      make_grid_edges_disjoint H W⟩
  · intro e he
    rw [List.mem_append] at he
    rcases he with he | he
    · rw [mem_make_grid_edges_right] at he
      obtain ⟨r, c, _, _, he⟩ := he
      rw [he]
      simp only
      omega
    · rw [mem_make_grid_edges_down] at he
      obtain ⟨r, c, _, hc, he⟩ := he
      rw [he]
      simp only
      have : (r + 1) * W + c = r * W + c + W := by ring
      omega
  · intro e he
    rw [mem_make_grid_edges_right] at he
    obtain ⟨r, c, hr, hc, he⟩ := he
    exact ⟨r, c, hr, by omega, he⟩
  · intro e he
    rw [mem_make_grid_edges_down] at he
    obtain ⟨r, c, hr, hc, he⟩ := he
    exact ⟨r, c, by omega, hc, he⟩

/-- Witness evaluating `make_grid_edges_spec` on a 2x2 grid. -/
theorem make_grid_edges_spec_witness :
    (make_grid_edges 2 2).1.length = 2 * (2 - 1)
    ∧ ((2, 3) : ℕ × ℕ) ∈ (make_grid_edges 2 2).1 ++ (make_grid_edges 2 2).2
    ∧ (2 : ℕ) ≠ 3 :=
  ⟨(make_grid_edges_spec 2 2).1, by decide,
   (make_grid_edges_spec 2 2).2.2.2.1 (2, 3) (by decide)⟩

/-! ### Claims C4 and C5: boundary padding and interior slots -/

theorem mul_add_div_of_lt (W r c : ℕ) (hc : c < W) : (r * W + c) / W = r := by
  have hW : 0 < W := Nat.lt_of_le_of_lt (Nat.zero_le c) hc
  rw [Nat.mul_comm r W, Nat.mul_add_div hW]
  simp [Nat.div_eq_of_lt hc]

theorem mul_add_mod_of_lt (W r c : ℕ) (hc : c < W) : (r * W + c) % W = c := by
  rw [Nat.mul_comm r W, Nat.mul_add_mod, Nat.mod_eq_of_lt hc]

theorem node_index_lt (H W r c : ℕ) (hr : r < H) (hc : c < W) : r * W + c < H * W :=
  calc r * W + c < r * W + W := by omega
  _ = (r + 1) * W := by ring
  _ ≤ H * W := Nat.mul_le_mul_right W hr

theorem node_slot_entry (x : Grid) (r c j cat : ℕ) (hr : r < x.length)
    (hc : c < gridW x) (hcat : cat < 5) (hj : j < 5) :
    ((neighborhood_feature x).getD (r * gridW x + c) []).getD (cat * 5 + j) 0
      = nf_val x r c cat j := by
  have hidx : r * gridW x + c < x.length * gridW x := node_index_lt _ _ _ _ hr hc
  have hk : cat * 5 + j < 25 := by omega
  rw [neighborhood_feature_entry x _ _ hidx hk]
  rw [mul_add_div_of_lt _ _ _ hc, mul_add_mod_of_lt _ _ _ hc]
  rw [mul_add_div_of_lt 5 cat j hj, mul_add_mod_of_lt 5 cat j hj]

theorem map_range_getD_eq_self (v : List ℕ) (h : v.length = 5) :
    (List.range 5).map (fun k => v.getD k 0) = v := by
  apply List.ext_getElem
  · simp [h]
  · intro i h1 h2
    simp only [List.length_map, List.length_range] at h1
    rw [List.getElem_map, List.getElem_range]
    exact List.getD_eq_getElem v 0 (by omega)

theorem getD_mem_of_lt {α : Type} (l : List α) (i : ℕ) (d : α) (h : i < l.length) :
    l.getD i d ∈ l := by
  rw [List.getD_eq_getElem l d h]
  exact List.getElem_mem h

/-- A rectangular H x W x 5 grid of valid one-hot pixel vectors. -/
def valid_onehot_grid (x : Grid) : Prop :=
  ∀ row ∈ x, row.length = gridW x ∧ ∀ v ∈ row, v.length = 5 ∧ v.sum = 1

instance (x : Grid) : Decidable (valid_onehot_grid x) := by
  unfold valid_onehot_grid
  infer_instance

/-- The pixel vector at an in-bounds position of a valid grid has length 5 and
sum 1. -/
theorem valid_pixel_facts (x : Grid) (hx : valid_onehot_grid x) (r c : ℕ)
    (hr : r < x.length) (hc : c < gridW x) :
    ((x.getD r []).getD c []).length = 5 ∧ ((x.getD r []).getD c []).sum = 1 := by
  have hrow := hx (x.getD r []) (getD_mem_of_lt x r [] hr)
  have hclen : c < (x.getD r []).length := by rw [hrow.1]; exact hc
  exact hrow.2 _ (getD_mem_of_lt _ c [] hclen)

theorem node_slot_eq_pixel (x : Grid) (r c j rn cn : ℕ) (hr : r < x.length)
    (hc : c < gridW x) (hj : j < 5)
    (hval : ∀ cat, cat < 5 → nf_val x r c cat j = get3 x rn cn cat)
    (hlen : ((x.getD rn []).getD cn []).length = 5) :
    node_slot x r c j = (x.getD rn []).getD cn [] := by
  unfold node_slot
  have hcong : ∀ cat ∈ List.range 5,
      ((neighborhood_feature x).getD (r * gridW x + c) []).getD (cat * 5 + j) 0
        = ((x.getD rn []).getD cn []).getD cat 0 := by
    intro cat hcat
    rw [List.mem_range] at hcat
    rw [node_slot_entry x r c j cat hr hc hcat hj, hval cat hcat]
    rfl
  rw [List.map_congr_left hcong]
  exact map_range_getD_eq_self _ hlen

theorem node_slot_eq_background (x : Grid) (r c j : ℕ) (hr : r < x.length)
    (hc : c < gridW x) (hj : j < 5)
    (hval : ∀ cat, cat < 5 → nf_val x r c cat j = if cat = 3 then 1 else 0) :
    node_slot x r c j = background_onehot := by
  unfold node_slot
  have hcong : ∀ cat ∈ List.range 5,
      ((neighborhood_feature x).getD (r * gridW x + c) []).getD (cat * 5 + j) 0
        = if cat = 3 then 1 else 0 := by
    intro cat hcat
    rw [List.mem_range] at hcat
    rw [node_slot_entry x r c j cat hr hc hcat hj, hval cat hcat]
  rw [List.map_congr_left hcong]
  decide

/-- Claim C4 (confirmed): for every grid and every in-bounds pixel, each
neighbor slot whose position falls outside the grid holds exactly the fixed
background one-hot vector — the left slot on the left edge, the up slot on the
top edge, the down slot on the bottom edge, the right slot on the right edge;
corners satisfy two of these at once. -/
theorem boundary_background_padding (x : Grid) (r c : ℕ) (hx : valid_onehot_grid x)
    (hr : r < x.length) (hc : c < gridW x) :
    (c = 0 → node_slot x r c 0 = background_onehot)
    ∧ (r = 0 → node_slot x r c 1 = background_onehot)
    ∧ (r + 1 = x.length → node_slot x r c 2 = background_onehot)
    ∧ (c + 1 = gridW x → node_slot x r c 3 = background_onehot) := by
  refine ⟨fun h0 => ?_, fun h0 => ?_, fun h0 => ?_, fun h0 => ?_⟩
  · exact node_slot_eq_background x r c 0 hr hc (by omega) (fun cat hcat => by
      simp [nf_val, nfSelf, nfRight, nfDown, nfUp, nfLeft, nfBackground, nfZeros, h0])
  · exact node_slot_eq_background x r c 1 hr hc (by omega) (fun cat hcat => by
      simp [nf_val, nfSelf, nfRight, nfDown, nfUp, nfLeft, nfBackground, nfZeros, h0])
  · exact node_slot_eq_background x r c 2 hr hc (by omega) (fun cat hcat => by
      simp [nf_val, nfSelf, nfRight, nfDown, nfUp, nfLeft, nfBackground, nfZeros, h0])
  · exact node_slot_eq_background x r c 3 hr hc (by omega) (fun cat hcat => by
      simp [nf_val, nfSelf, nfRight, nfDown, nfUp, nfLeft, nfBackground, nfZeros, h0])

/-- Witness for `boundary_background_padding` at the top-left corner of a 2x2
all-background grid. -/
theorem boundary_background_padding_witness :
    valid_onehot_grid [[background_onehot, background_onehot],
                       [background_onehot, background_onehot]] ∧
    node_slot [[background_onehot, background_onehot],
               [background_onehot, background_onehot]] 0 0 1 = background_onehot :=
  ⟨by decide,
   (boundary_background_padding [[background_onehot, background_onehot],
      [background_onehot, background_onehot]] 0 0 (by decide) (by decide)
      (by decide)).2.1 rfl⟩

/-- Claim C5 (confirmed): for every valid one-hot grid and every interior
pixel, all five neighborhood slots are copied from real grid entries — left,
up, down, right neighbors and the pixel itself — and each slot sums to
exactly 1. -/
theorem interior_slots_onehot (x : Grid) (r c : ℕ) (hx : valid_onehot_grid x)
    (hr0 : 0 < r) (hrH : r + 1 < x.length) (hc0 : 0 < c) (hcW : c + 1 < gridW x) :
    node_slot x r c 0 = (x.getD r []).getD (c - 1) []
    ∧ node_slot x r c 1 = (x.getD (r - 1) []).getD c []
    ∧ node_slot x r c 2 = (x.getD (r + 1) []).getD c []
    ∧ node_slot x r c 3 = (x.getD r []).getD (c + 1) []
    ∧ node_slot x r c 4 = (x.getD r []).getD c []
    ∧ (∀ j, j < 5 → (node_slot x r c j).sum = 1) := by
  have hr : r < x.length := by omega
  have hc : c < gridW x := by omega
  have hcm : c - 1 < gridW x := by omega
  have hrm : r - 1 < x.length := by omega
  have h1c : 1 ≤ c := hc0
  have h1r : 1 ≤ r := hr0
  have p0 := valid_pixel_facts x hx r (c - 1) hr hcm
  have p1 := valid_pixel_facts x hx (r - 1) c hrm hc
  have p2 := valid_pixel_facts x hx (r + 1) c hrH hc
  have p3 := valid_pixel_facts x hx r (c + 1) hr hcW
  have p4 := valid_pixel_facts x hx r c hr hc
  have e0 : node_slot x r c 0 = (x.getD r []).getD (c - 1) [] :=
    node_slot_eq_pixel x r c 0 r (c - 1) hr hc (by omega) (fun cat hcat => by
      simp [nf_val, nfSelf, nfRight, nfDown, nfUp, nfLeft, h1c, hc, hr]) p0.1
  have e1 : node_slot x r c 1 = (x.getD (r - 1) []).getD c [] :=
    node_slot_eq_pixel x r c 1 (r - 1) c hr hc (by omega) (fun cat hcat => by
      simp [nf_val, nfSelf, nfRight, nfDown, nfUp, nfLeft, h1r, hc, hr]) p1.1
  have e2 : node_slot x r c 2 = (x.getD (r + 1) []).getD c [] :=
    node_slot_eq_pixel x r c 2 (r + 1) c hr hc (by omega) (fun cat hcat => by
      simp [nf_val, nfSelf, nfRight, nfDown, nfUp, nfLeft, hrH, hc]) p2.1
  have e3 : node_slot x r c 3 = (x.getD r []).getD (c + 1) [] :=
    node_slot_eq_pixel x r c 3 r (c + 1) hr hc (by omega) (fun cat hcat => by
      simp [nf_val, nfSelf, nfRight, nfDown, nfUp, nfLeft, hcW, hr]) p3.1
  have e4 : node_slot x r c 4 = (x.getD r []).getD c [] :=
    node_slot_eq_pixel x r c 4 r c hr hc (by omega) (fun cat hcat => by
      simp [nf_val, nfSelf, nfRight, nfDown, nfUp, nfLeft, hr, hc]) p4.1
  refine ⟨e0, e1, e2, e3, e4, fun j hj => ?_⟩
  interval_cases j
  · rw [e0]
    exact p0.2
  · rw [e1]
    exact p1.2
  · rw [e2]
    exact p2.2
  · rw [e3]
    exact p3.2
  · rw [e4]
    exact p4.2

/-- Witness for `interior_slots_onehot` at the center of a 3x3 all-background
grid. -/
theorem interior_slots_onehot_witness :
    valid_onehot_grid [[background_onehot, background_onehot, background_onehot],
                       [background_onehot, background_onehot, background_onehot],
                       [background_onehot, background_onehot, background_onehot]] ∧
    node_slot [[background_onehot, background_onehot, background_onehot],
               [background_onehot, background_onehot, background_onehot],
               [background_onehot, background_onehot, background_onehot]] 1 1 4
      = background_onehot :=
  ⟨by decide,
   (interior_slots_onehot [[background_onehot, background_onehot, background_onehot],
      [background_onehot, background_onehot, background_onehot],
      [background_onehot, background_onehot, background_onehot]] 1 1
      (by decide) (by decide) (by decide) (by decide) (by decide)).2.2.2.2.1⟩

/-! ### Claim C8: the 1x1 grid scenario -/

/-- Counterexample for claim C8 as stated: on the 1x1 grid whose pixel is the
one-hot of category 0, the produced node feature vector is not the slot-major
concatenation [self one-hot, background, background, background, background];
the code interleaves the 25 entries category-major, with the self slot last
within each category block. -/
theorem one_by_one_slot_order_counterexample :
    (body_run [[[1, 0, 0, 0, 0]]]).features.getD 0 []
      ≠ [1, 0, 0, 0, 0] ++ background_onehot ++ background_onehot
        ++ background_onehot ++ background_onehot := by
  decide

/-- Claim C8 (amended, corrected): a 1x1 grid produces 1 node, 0 edges, and a
node feature vector whose four neighbor slots are the background one-hot and
whose self slot is the pixel's own vector — laid out category-major (entry
`cat * 5 + slot`), with the self slot last in each block, not as the
slot-major concatenation [self, background, background, background,
background]. -/
theorem one_by_one_prepare (v : List ℕ) (hv : v.length = 5) :
    (body_run [[v]]).features.length = 1
    ∧ (body_run [[v]]).edges = []
    ∧ (∀ j, j < 4 → node_slot [[v]] 0 0 j = background_onehot)
    ∧ node_slot [[v]] 0 0 4 = v
    ∧ (body_run [[v]]).features.getD 0 []
        = (List.range 25).map (fun k =>
            if k % 5 = 4 then v.getD (k / 5) 0 else if k / 5 = 3 then 1 else 0) := by
  have hr : (0 : ℕ) < ([[v]] : Grid).length := by simp
  have hc : (0 : ℕ) < gridW [[v]] := by simp [gridW]
  refine ⟨?_, rfl, ?_, ?_, ?_⟩
  · rw [body_run_features]
    simp [neighborhood_feature, gridW]
  · intro j hj
    interval_cases j
    · exact node_slot_eq_background [[v]] 0 0 0 hr hc (by omega) (fun cat hcat => by
        simp [nf_val, nfSelf, nfRight, nfDown, nfUp, nfLeft, nfBackground, nfZeros, gridW])
    · exact node_slot_eq_background [[v]] 0 0 1 hr hc (by omega) (fun cat hcat => by
        simp [nf_val, nfSelf, nfRight, nfDown, nfUp, nfLeft, nfBackground, nfZeros, gridW])
    · exact node_slot_eq_background [[v]] 0 0 2 hr hc (by omega) (fun cat hcat => by
        simp [nf_val, nfSelf, nfRight, nfDown, nfUp, nfLeft, nfBackground, nfZeros, gridW])
    · exact node_slot_eq_background [[v]] 0 0 3 hr hc (by omega) (fun cat hcat => by
        simp [nf_val, nfSelf, nfRight, nfDown, nfUp, nfLeft, nfBackground, nfZeros, gridW])
  · exact node_slot_eq_pixel [[v]] 0 0 4 0 0 hr hc (by omega) (fun cat hcat => by
      simp [nf_val, nfSelf, gridW]) hv
  · rw [body_run_features]
    have h0 : (neighborhood_feature [[v]]).getD 0 []
        = (List.range 25).map (fun k =>
            nf_val [[v]] (0 / gridW [[v]]) (0 % gridW [[v]]) (k / 5) (k % 5)) := by
      unfold neighborhood_feature
      exact getD_range_map _ _ _ (by simp [gridW]) []
    rw [h0]
    apply List.map_congr_left
    intro k hk
    rw [List.mem_range] at hk
    interval_cases k <;>
      simp [nf_val, nfSelf, nfRight, nfDown, nfUp, nfLeft, nfBackground, nfZeros,
        gridW, get3]

/-- Witness for `one_by_one_prepare` at the background pixel. -/
theorem one_by_one_prepare_witness :
    background_onehot.length = 5
    ∧ node_slot [[background_onehot]] 0 0 4 = background_onehot :=
  ⟨by decide, (one_by_one_prepare background_onehot (by decide)).2.2.2.1⟩

/-! ### Claim C9: no mutation of the inputs -/

/-- Claim C9 (confirmed): the dataset preparer leaves every input grid
unchanged — no statement of the loop body writes to `x` — while producing,
per sample, the tuple with direction-only edge features and the tuple with
node-feature-pair edge features. -/
theorem prepare_data_no_mutation (X : List Grid) :
    (∀ x ∈ X, (body_run x).x = x)
    ∧ (prepare_data X).1 = X.map (fun x => (neighborhood_feature x, grid_edges x,
        edge_list_to_features (grid_right x) (grid_down x)))
    ∧ (prepare_data X).2 = X.map (fun x => (neighborhood_feature x, grid_edges x,
        ef_stage4 x)) := by
  refine ⟨fun x _ => body_run_x x, ?_, ?_⟩
  · apply List.map_congr_left
    intro x _
    rw [body_run_features, body_run_edges, body_run_directions]
  · apply List.map_congr_left
    intro x _
    rw [body_run_features, body_run_edges, body_run_edge_features]

/-- Witness for `prepare_data_no_mutation` on a singleton batch. -/
theorem prepare_data_no_mutation_witness :
    (body_run [[background_onehot]]).x = [[background_onehot]] :=
  (prepare_data_no_mutation [[[background_onehot]]]).1 [[background_onehot]] (by decide)
